import Mathlib

/-!
Shallow embedding of `src/screen_basic.c`: a bit-banged I2C master driving an
SSD1315 OLED from an MSP430FR5739.  The machine state models the GPIO
registers the program touches (P2OUT, P2DIR, P2REN for the bus and reset pin,
P3OUT for the status LED) as natural-number bit masks, together with an oracle
list of SDA input samples (the slave's ACK/NACK behaviour, `true` = line high).
Each C function becomes a Lean function from state to (result,) state and a
trace of observable GPIO/timing events.  Clock and watchdog registers are not
modelled: no claim concerns them and the program writes them once at boot.
-/

namespace ScreenBasic

/-- Bit masks from `msp430.h`. -/
def BIT0 : Nat := 0x01
def BIT1 : Nat := 0x02
def BIT2 : Nat := 0x04
def BIT4 : Nat := 0x10

/-- `#define OLED_SCL_BIT BIT1` (P2.1). -/
def OLED_SCL_BIT : Nat := BIT1
/-- `#define OLED_SDA_BIT BIT2` (P2.2). -/
def OLED_SDA_BIT : Nat := BIT2
/-- `#define OLED_RES_BIT BIT0` (P2.0). -/
def OLED_RES_BIT : Nat := BIT0

/-- `#define USE_INTERNAL_PULLUPS 0` (external 10k pull-ups in use). -/
def USE_INTERNAL_PULLUPS : Nat := 0

/-- `#define SSD1315_ADDR_WRITE 0x78`. -/
def SSD1315_ADDR_WRITE : Nat := 0x78

/-- `#define OLED_CTRL_CMD 0x00`. -/
def OLED_CTRL_CMD : Nat := 0x00
/-- `#define OLED_CTRL_DATA 0x40`. -/
def OLED_CTRL_DATA : Nat := 0x40

/-- `#define USE_CHARGE_PUMP 0` (external VCC, manual power-up pause). -/
def USE_CHARGE_PUMP : Nat := 0

/-- 8-bit one's complement, as `~mask` computes on an 8-bit register. -/
def compl8 (m : Nat) : Nat := 255 ^^^ m

/-- C logical negation `!x` on an integer: 1 when the value is zero, else 0.
The source writes `P3OUT &= !BIT4` (not `~BIT4`), so this operand is 0. -/
def cNot (x : Nat) : Nat := if x = 0 then 1 else 0

/-- Machine state: the GPIO registers the program reads or writes, plus the
oracle of values the SDA input would sample (head = next sample; an exhausted
oracle reads `true`, the externally pulled-up idle level). -/
structure Mcu where
  p2out : Nat
  p2dir : Nat
  p2ren : Nat
  p3out : Nat
  p3dir : Nat
  sdaIn : List Bool
  deriving Repr, DecidableEq

/-- Observable events: GPIO line actions at the granularity of the C helper
functions, SDA input samples, LED register writes, delays, and the one-time
register writes of `oled_gpio_init`. -/
inductive Ev where
  | sclLow | sclRel | sdaLow | sdaRel
  | sdaSample (v : Bool)
  | resLow | resHigh
  | ledOn | ledOff
  | dShort
  | dMs (n : Nat)
  | dS (n : Nat)
  | initOutClear | initResDirOut | initRenClear
  deriving Repr, DecidableEq

/-! ### Register micro-operations
Each C statement that writes a GPIO register is one of these read-modify-write
(or plain or/and) updates. -/

/-- `REG &= m` on P2OUT. -/
def outAnd (m : Nat) (s : Mcu) : Mcu := { s with p2out := s.p2out &&& m }
/-- `REG |= m` on P2OUT. -/
def outOr (m : Nat) (s : Mcu) : Mcu := { s with p2out := s.p2out ||| m }
/-- `REG &= m` on P2DIR. -/
def dirAnd (m : Nat) (s : Mcu) : Mcu := { s with p2dir := s.p2dir &&& m }
/-- `REG |= m` on P2DIR. -/
def dirOr (m : Nat) (s : Mcu) : Mcu := { s with p2dir := s.p2dir ||| m }
/-- `REG &= m` on P2REN. -/
def renAnd (m : Nat) (s : Mcu) : Mcu := { s with p2ren := s.p2ren &&& m }
/-- `REG |= m` on P2REN. -/
def renOr (m : Nat) (s : Mcu) : Mcu := { s with p2ren := s.p2ren ||| m }

/-! ### Timing source (`delay_cycles_const`, `delay_ms`, `delay_s`)
The C functions are busy-wait loops; we model the cycles they burn as
structurally recursive functions mirroring the `while (n--)` loops, and record
each delay call as a single trace event. -/

/-- `delay_cycles_const(nBlocks)`: each loop iteration burns `__delay_cycles(1000)`.
Returns the total cycle count. -/
def delay_cycles_const : Nat → Nat
  | 0 => 0
  | n + 1 => 1000 + delay_cycles_const n

/-- `delay_ms(ms)`: each iteration calls `delay_cycles_const(5)`. Total cycles. -/
def delay_ms_cycles : Nat → Nat
  | 0 => 0
  | n + 1 => delay_cycles_const 5 + delay_ms_cycles n

/-- `delay_s(s)`: each iteration calls `delay_ms(1000)`. Total cycles. -/
def delay_s_cycles : Nat → Nat
  | 0 => 0
  | n + 1 => delay_ms_cycles 1000 + delay_s_cycles n

/-- `delay_short()`: `__delay_cycles(100)`. -/
def delay_short_cycles : Nat := 100

/-- `delay_short()` as a traced operation: no register effect. -/
def delay_short (s : Mcu) : Mcu × List Ev := (s, [Ev.dShort])

/-- `delay_ms(n)` as a traced operation: no register effect. -/
def delay_ms (n : Nat) (s : Mcu) : Mcu × List Ev := (s, [Ev.dMs n])

/-- `delay_s(n)` as a traced operation: no register effect. -/
def delay_s (n : Nat) (s : Mcu) : Mcu × List Ev := (s, [Ev.dS n])

/-! ### Open-drain helpers -/

/-- `SCL_low`: `OLED_PORT_OUT &= ~OLED_SCL_BIT; OLED_PORT_DIR |= OLED_SCL_BIT;` -/
def SCL_low (s : Mcu) : Mcu × List Ev :=
  (dirOr OLED_SCL_BIT (outAnd (compl8 OLED_SCL_BIT) s), [Ev.sclLow])

/-- `SCL_release`: `OLED_PORT_DIR &= ~OLED_SCL_BIT;` -/
def SCL_release (s : Mcu) : Mcu × List Ev :=
  (dirAnd (compl8 OLED_SCL_BIT) s, [Ev.sclRel])

/-- `SDA_low`: `OLED_PORT_OUT &= ~OLED_SDA_BIT; OLED_PORT_DIR |= OLED_SDA_BIT;` -/
def SDA_low (s : Mcu) : Mcu × List Ev :=
  (dirOr OLED_SDA_BIT (outAnd (compl8 OLED_SDA_BIT) s), [Ev.sdaLow])

/-- `SDA_release`: `OLED_PORT_DIR &= ~OLED_SDA_BIT;` -/
def SDA_release (s : Mcu) : Mcu × List Ev :=
  (dirAnd (compl8 OLED_SDA_BIT) s, [Ev.sdaRel])

/-- `SDA_read`: `(OLED_PORT_IN & OLED_SDA_BIT) ? 1 : 0`.  The sampled input
level comes from the head of the oracle (exhausted oracle = pulled-up high);
the sample is consumed and recorded in the trace. -/
def SDA_read (s : Mcu) : Bool × Mcu × List Ev :=
  let v := s.sdaIn.headD true
  (v, { s with sdaIn := s.sdaIn.tail }, [Ev.sdaSample v])

/-! ### I2C bit-bang layer -/

/-- `i2c_idle`: `SDA_release(); SCL_release(); delay_short();` -/
def i2c_idle (s : Mcu) : Mcu × List Ev :=
  let (s1, t1) := SDA_release s
  let (s2, t2) := SCL_release s1
  let (s3, t3) := delay_short s2
  (s3, t1 ++ t2 ++ t3)

/-- `i2c_start`: release both, delay, SDA low, delay, SCL low, delay. -/
def i2c_start (s : Mcu) : Mcu × List Ev :=
  let (s1, t1) := SDA_release s
  let (s2, t2) := SCL_release s1
  let (s3, t3) := delay_short s2
  let (s4, t4) := SDA_low s3
  let (s5, t5) := delay_short s4
  let (s6, t6) := SCL_low s5
  let (s7, t7) := delay_short s6
  (s7, t1 ++ t2 ++ t3 ++ t4 ++ t5 ++ t6 ++ t7)

/-- `i2c_stop`: SDA low, delay, SCL release, delay, SDA release, delay. -/
def i2c_stop (s : Mcu) : Mcu × List Ev :=
  let (s1, t1) := SDA_low s
  let (s2, t2) := delay_short s1
  let (s3, t3) := SCL_release s2
  let (s4, t4) := delay_short s3
  let (s5, t5) := SDA_release s4
  let (s6, t6) := delay_short s5
  (s6, t1 ++ t2 ++ t3 ++ t4 ++ t5 ++ t6)

/-- `i2c_write_bit(bit)`: set SDA to the bit value (release = 1, low = 0),
delay, SCL release, delay, SCL low, delay. -/
def i2c_write_bit (bit : Bool) (s : Mcu) : Mcu × List Ev :=
  let (s1, t1) := if bit then SDA_release s else SDA_low s
  let (s2, t2) := delay_short s1
  let (s3, t3) := SCL_release s2
  let (s4, t4) := delay_short s3
  let (s5, t5) := SCL_low s4
  let (s6, t6) := delay_short s5
  (s6, t1 ++ t2 ++ t3 ++ t4 ++ t5 ++ t6)

/-- `i2c_read_ack`: release SDA, delay, release SCL, delay, sample SDA
(`ack = (SDA_read() == 0)`), pull SCL low, delay; return `ack`. -/
def i2c_read_ack (s : Mcu) : Bool × Mcu × List Ev :=
  let (s1, t1) := SDA_release s
  let (s2, t2) := delay_short s1
  let (s3, t3) := SCL_release s2
  let (s4, t4) := delay_short s3
  let (v, s5, t5) := SDA_read s4
  let (s6, t6) := SCL_low s5
  let (s7, t7) := delay_short s6
  (v == false, s7, t1 ++ t2 ++ t3 ++ t4 ++ t5 ++ t6 ++ t7)

/-- The loop body of `i2c_write_byte`, iterated `n` times: each iteration
writes the bit `(b & 0x80) != 0` and then shifts the `uint8_t` accumulator
left (`b <<= 1` truncates to 8 bits). -/
def writeBits : Nat → Nat → Mcu → Mcu × List Ev
  | 0, _, s => (s, [])
  | n + 1, b, s =>
    let (s1, t1) := i2c_write_bit (b &&& 0x80 != 0) s
    let (s2, t2) := writeBits n ((b <<< 1) &&& 0xFF) s1
    (s2, t1 ++ t2)

/-- `i2c_write_byte(b)`: eight `i2c_write_bit` calls, MSB first, then
`i2c_read_ack`; returns the ACK result. -/
def i2c_write_byte (b : Nat) (s : Mcu) : Bool × Mcu × List Ev :=
  let (s1, t1) := writeBits 8 b s
  let (a, s2, t2) := i2c_read_ack s1
  (a, s2, t1 ++ t2)

/-! ### OLED primitives -/

/-- `oled_gpio_init`: clear SCL/SDA/RES output bits, RES as output,
pull-up resistors per `USE_INTERNAL_PULLUPS`, RES high, then `i2c_idle`.
The `PM5CTL0 &= ~LOCKLPM5` unlock touches no modelled register. -/
def oled_gpio_init (s : Mcu) : Mcu × List Ev :=
  let s1 := outAnd (compl8 (OLED_SCL_BIT ||| OLED_SDA_BIT ||| OLED_RES_BIT)) s
  let s2 := dirOr OLED_RES_BIT s1
  let s3 :=
    if USE_INTERNAL_PULLUPS ≠ 0 then
      outOr (OLED_SCL_BIT ||| OLED_SDA_BIT)
        (renOr (OLED_SCL_BIT ||| OLED_SDA_BIT) s2)
    else
      renAnd (compl8 (OLED_SCL_BIT ||| OLED_SDA_BIT)) s2
  let s4 := outOr OLED_RES_BIT s3
  let (s5, t5) := i2c_idle s4
  (s5, [Ev.initOutClear, Ev.initResDirOut, Ev.initRenClear, Ev.resHigh] ++ t5)

/-- `oled_reset_pulse`: RES low, 50 ms, RES high, 50 ms. -/
def oled_reset_pulse (s : Mcu) : Mcu × List Ev :=
  let s1 := outAnd (compl8 OLED_RES_BIT) s
  let (s2, t2) := delay_ms 50 s1
  let s3 := outOr OLED_RES_BIT s2
  let (s4, t4) := delay_ms 50 s3
  (s4, [Ev.resLow] ++ t2 ++ [Ev.resHigh] ++ t4)

/-- `oled_write(control, data)`: START; address byte, abort on NACK; control
byte, abort on NACK; data byte; LED `P3OUT |= BIT4` on ACK, `P3OUT &= !BIT4`
on NACK (the source's logical-not makes the operand 0); STOP; return `ok`. -/
def oled_write (control data : Nat) (s : Mcu) : Bool × Mcu × List Ev :=
  let (s1, t1) := i2c_start s
  let (ok1, s2, t2) := i2c_write_byte SSD1315_ADDR_WRITE s1
  if !ok1 then
    let (s3, t3) := i2c_stop s2
    (false, s3, t1 ++ t2 ++ t3)
  else
    let (ok2, s4, t4) := i2c_write_byte control s2
    if !ok2 then
      let (s5, t5) := i2c_stop s4
      (false, s5, t1 ++ t2 ++ t4 ++ t5)
    else
      let (ok3, s6, t6) := i2c_write_byte data s4
      let (s7, t7) :=
        if ok3 then ({ s6 with p3out := s6.p3out ||| BIT4 }, [Ev.ledOn])
        else ({ s6 with p3out := s6.p3out &&& cNot BIT4 }, [Ev.ledOff])
      let (s8, t8) := i2c_stop s7
      (ok3, s8, t1 ++ t2 ++ t4 ++ t6 ++ t7 ++ t8)

/-- `oled_cmd(c) = oled_write(OLED_CTRL_CMD, c)`. -/
def oled_cmd (c : Nat) (s : Mcu) : Bool × Mcu × List Ev :=
  oled_write OLED_CTRL_CMD c s

/-- `oled_init_minimal`: charge-pump commands when `USE_CHARGE_PUMP` is set,
otherwise an 8 s pause for external VCC; then display-on `0xAF` and 150 ms. -/
def oled_init_minimal (s : Mcu) : Mcu × List Ev :=
  let (s3, t3) :=
    if USE_CHARGE_PUMP ≠ 0 then
      let (_, s1, t1) := oled_cmd 0x8D s
      let (_, s2, t2) := oled_cmd 0x14 s1
      let (s3, t3) := delay_ms 100 s2
      (s3, t1 ++ t2 ++ t3)
    else
      delay_s 8 s
  let (_, s4, t4) := oled_cmd 0xAF s3
  let (s5, t5) := delay_ms 150 s4
  (s5, t3 ++ t4 ++ t5)

/-- The LED setup at the top of `main`: `P3DIR |= BIT4; P3OUT &= !BIT4;`
(the second statement again uses C logical not, so it clears all of P3OUT). -/
def main_pre (s0 : Mcu) : Mcu :=
  { s0 with p3dir := s0.p3dir ||| BIT4, p3out := s0.p3out &&& cNot BIT4 }

/-- The body of `main` up to the idle loop: watchdog hold and
`clock_init_dco_default` touch only unmodelled registers; then the LED pin is
made an output and cleared, GPIO init, 200 ms settling, reset pulse, minimal
init, and the `0xA5` all-on command. -/
def main_model (s0 : Mcu) : Mcu × List Ev :=
  let s2 := main_pre s0
  let (s3, t3) := oled_gpio_init s2
  let (s4, t4) := delay_ms 200 s3
  let (s5, t5) := oled_reset_pulse s4
  let (s6, t6) := oled_init_minimal s5
  let (_, s7, t7) := oled_cmd 0xA5 s6
  (s7, t3 ++ t4 ++ t5 ++ t6 ++ t7)

/-- The machine state when `oled_gpio_init` returns during `main`. -/
def postGpio (s0 : Mcu) : Mcu := (oled_gpio_init (main_pre s0)).1

/-- The machine state when `oled_reset_pulse` returns during `main`. -/
def postReset (s0 : Mcu) : Mcu := (oled_reset_pulse (postGpio s0)).1

/-- The machine state when `oled_init_minimal` returns during `main`. -/
def postInit (s0 : Mcu) : Mcu := (oled_init_minimal (postReset s0)).1

/-- The body of the terminal `while (1)` loop in `main`: every statement is
commented out, so one iteration produces no bus traffic and no state change. -/
def idle_loop_body (s : Mcu) : Mcu × List Ev := (s, [])

/-! ### Trace shapes
Closed-form descriptions of the event traces the primitives produce, used to
state the wire-protocol claims. -/

/-- Trace of `i2c_start`. -/
def startTrace : List Ev :=
  [Ev.sdaRel, Ev.sclRel, Ev.dShort, Ev.sdaLow, Ev.dShort, Ev.sclLow, Ev.dShort]

/-- Trace of `i2c_stop`. -/
def stopTrace : List Ev :=
  [Ev.sdaLow, Ev.dShort, Ev.sclRel, Ev.dShort, Ev.sdaRel, Ev.dShort]

/-- Trace of one `i2c_write_bit bit` call. -/
def bitTrace (bit : Bool) : List Ev :=
  [(if bit then Ev.sdaRel else Ev.sdaLow), Ev.dShort, Ev.sclRel, Ev.dShort,
   Ev.sclLow, Ev.dShort]

/-- Trace of `i2c_read_ack` when the sampled SDA level is `v`: the sample
falls strictly between the SCL rising and falling edges. -/
def ackTrace (v : Bool) : List Ev :=
  [Ev.sdaRel, Ev.dShort, Ev.sclRel, Ev.dShort, Ev.sdaSample v, Ev.sclLow, Ev.dShort]

/-- Trace of the byte loop of `i2c_write_byte b`, one step at a time
(`b & 0x80` then `b <<= 1` on the 8-bit accumulator). -/
def bitsTraceAux : Nat → Nat → List Ev
  | 0, _ => []
  | n + 1, b => bitTrace (b &&& 0x80 != 0) ++ bitsTraceAux n ((b <<< 1) &&& 0xFF)

/-- The bits of a byte, most-significant first. -/
def msbBits (b : Nat) : List Bool :=
  [b.testBit 7, b.testBit 6, b.testBit 5, b.testBit 4,
   b.testBit 3, b.testBit 2, b.testBit 1, b.testBit 0]

/-- Concatenation of the bit traces of a list of bits. -/
def joinBits (l : List Bool) : List Ev := l.foldr (fun bit acc => bitTrace bit ++ acc) []

/-- Trace of a full byte transmission whose ACK slot samples level `v`:
the bits of the byte MSB-first, then the ACK cycle. -/
def byteTrace (b : Nat) (v : Bool) : List Ev := joinBits (msbBits b) ++ ackTrace v

/-- Protocol-level view of a transfer: START and STOP conditions, transmitted
bytes tagged with the sampled level of their ACK slot (`true` = SDA stayed
high = NACK), and the status-LED update. -/
inductive PEv where
  | pstart
  | pstop
  | pbyte (b : Nat) (sampled : Bool)
  | pled (lit : Bool)
  deriving Repr, DecidableEq

/-- The wire-level event trace of one protocol event. -/
def render : PEv → List Ev
  | .pstart => startTrace
  | .pstop => stopTrace
  | .pbyte b v => byteTrace b v
  | .pled lit => if lit then [Ev.ledOn] else [Ev.ledOff]

/-- The wire-level event trace of a protocol trace. -/
def renderAll (l : List PEv) : List Ev := l.foldr (fun e acc => render e ++ acc) []

/-- The protocol trace of `oled_write control data` when the three ACK slots
would sample levels `a1 a2 a3`: START, address byte; on address NACK stop at
once; otherwise control byte; on control NACK stop at once; otherwise the
payload byte, the LED update (lit exactly on payload ACK), and STOP. -/
def writeProto (control data : Nat) (a1 a2 a3 : Bool) : List PEv :=
  [PEv.pstart, PEv.pbyte SSD1315_ADDR_WRITE a1] ++
    (if a1 then [PEv.pstop]
     else [PEv.pbyte control a2] ++
       (if a2 then [PEv.pstop]
        else [PEv.pbyte data a3, PEv.pled (!a3), PEv.pstop]))

/-- The `i`-th value the SDA input will sample in state `s` (missing oracle
entries read high). -/
def sampleAt (s : Mcu) (i : Nat) : Bool := s.sdaIn.getD i true

/-- Facts every I2C bus primitive preserves about the registers: the pull-up
enables, the whole LED port, the RES output bit, and "the SCL/SDA output bits
are low" (each P2OUT write is a read-modify-write `&=`/`|=`). -/
def StPres (s r : Mcu) : Prop :=
  r.p2ren = s.p2ren ∧ r.p3out = s.p3out ∧ r.p3dir = s.p3dir ∧
  r.p2out.testBit 0 = s.p2out.testBit 0 ∧
  (s.p2out.testBit 1 = false → r.p2out.testBit 1 = false) ∧
  (s.p2out.testBit 2 = false → r.p2out.testBit 2 = false)

/-- The output-register bits of both bus lines are 0, so neither line can be
driven high no matter the direction bits. -/
def busOutsLow (s : Mcu) : Prop :=
  s.p2out.testBit 1 = false ∧ s.p2out.testBit 2 = false

/-- The master is actively driving a bus line high: its direction bit is
output while its output bit is 1. -/
def drivesHigh (s : Mcu) : Prop :=
  (s.p2dir.testBit 1 = true ∧ s.p2out.testBit 1 = true) ∨
  (s.p2dir.testBit 2 = true ∧ s.p2out.testBit 2 = true)

/-- Both bus lines are released to inputs (idle between transfers). -/
def busReleased (s : Mcu) : Prop :=
  s.p2dir.testBit 1 = false ∧ s.p2dir.testBit 2 = false

/-- The byte transmitted by a protocol event, if it is a byte event. -/
def pbyteVal : PEv → Option Nat
  | .pbyte b _ => some b
  | _ => none

/-- A protocol event that is not one of the charge-pump command bytes
(`0x8D` charge-pump setting, `0x14` enable). -/
def noCpByte (e : PEv) : Bool :=
  pbyteVal e != some 0x8D && pbyteVal e != some 0x14

/-- A concrete machine state with all registers clear and an exhausted SDA
oracle (every ACK slot samples high, i.e. NACK). -/
def mcu0 : Mcu :=
  { p2out := 0, p2dir := 0, p2ren := 0, p3out := 0, p3dir := 0, sdaIn := [] }

/-- A concrete machine state exercising the LED-clear path: P3OUT has bit 0
set, and the slave ACKs the address and control bytes but NACKs the payload. -/
def mcuBug : Mcu :=
  { p2out := 0, p2dir := 0, p2ren := 0, p3out := 1, p3dir := BIT4,
    sdaIn := [false, false, true] }

/-! ### Bit-level helper lemmas -/

theorem tb_and (x m i : Nat) (h : m.testBit i = true) :
    (x &&& m).testBit i = x.testBit i := by
  rw [Nat.testBit_land, h, Bool.and_true]

theorem tb_and_false (x m i : Nat) (h : m.testBit i = false) :
    (x &&& m).testBit i = false := by
  rw [Nat.testBit_land, h, Bool.and_false]

theorem tb_or (x m i : Nat) (h : m.testBit i = false) :
    (x ||| m).testBit i = x.testBit i := by
  rw [Nat.testBit_lor, h, Bool.or_false]

theorem tb_or_true (x m i : Nat) (h : m.testBit i = true) :
    (x ||| m).testBit i = true := by
  rw [Nat.testBit_lor, h, Bool.or_true]

/-! ### Trace and state projection lemmas for the I2C primitives -/

theorem i2c_idle_tr (s : Mcu) : (i2c_idle s).2 = [Ev.sdaRel, Ev.sclRel, Ev.dShort] := rfl

theorem i2c_start_tr (s : Mcu) : (i2c_start s).2 = startTrace := rfl

theorem i2c_stop_tr (s : Mcu) : (i2c_stop s).2 = stopTrace := rfl

theorem i2c_write_bit_tr (bit : Bool) (s : Mcu) :
    (i2c_write_bit bit s).2 = bitTrace bit := by
  cases bit <;> rfl

theorem i2c_read_ack_tr (s : Mcu) :
    (i2c_read_ack s).2.2 = ackTrace (s.sdaIn.headD true) := rfl

theorem i2c_read_ack_ret (s : Mcu) :
    (i2c_read_ack s).1 = (s.sdaIn.headD true == false) := rfl

theorem i2c_read_ack_sdaIn (s : Mcu) :
    (i2c_read_ack s).2.1.sdaIn = s.sdaIn.tail := rfl

theorem writeBits_tr (n : Nat) :
    ∀ (b : Nat) (s : Mcu), (writeBits n b s).2 = bitsTraceAux n b := by
  induction n with
  | zero => intro b s; rfl
  | succ n ih =>
    intro b s
    simp only [writeBits, bitsTraceAux]
    rw [← i2c_write_bit_tr (b &&& 0x80 != 0) s]
    cases h : i2c_write_bit (b &&& 0x80 != 0) s with
    | mk s1 t1 => simp [ih]

theorem i2c_write_bit_sdaIn (bit : Bool) (s : Mcu) :
    (i2c_write_bit bit s).1.sdaIn = s.sdaIn := by
  cases bit <;> rfl

theorem writeBits_sdaIn (n : Nat) :
    ∀ (b : Nat) (s : Mcu), (writeBits n b s).1.sdaIn = s.sdaIn := by
  induction n with
  | zero => intro b s; rfl
  | succ n ih =>
    intro b s
    simp only [writeBits]
    rw [← i2c_write_bit_sdaIn (b &&& 0x80 != 0) s]
    cases h : i2c_write_bit (b &&& 0x80 != 0) s with
    | mk s1 t1 => simp [ih]

set_option maxRecDepth 4000 in
theorem bitsTraceAux_eq_msb :
    ∀ x : Fin 256, bitsTraceAux 8 x.val = joinBits (msbBits x.val) := by decide

theorem i2c_write_byte_tr (b : Nat) (hb : b < 256) (s : Mcu) :
    (i2c_write_byte b s).2.2 = byteTrace b (s.sdaIn.headD true) := by
  simp only [i2c_write_byte]
  rcases h1 : writeBits 8 b s with ⟨s1, t1⟩
  have ht1 : t1 = bitsTraceAux 8 b := by rw [← writeBits_tr 8 b s, h1]
  have hs1 : s1.sdaIn = s.sdaIn := by rw [← writeBits_sdaIn 8 b s, h1]
  rcases h2 : i2c_read_ack s1 with ⟨a, s2, t2⟩
  have ht2 : t2 = ackTrace (s1.sdaIn.headD true) := by rw [← i2c_read_ack_tr s1, h2]
  simp [ht1, ht2, hs1, byteTrace, bitsTraceAux_eq_msb ⟨b, hb⟩]

theorem i2c_write_byte_ret (b : Nat) (s : Mcu) :
    (i2c_write_byte b s).1 = (s.sdaIn.headD true == false) := by
  simp only [i2c_write_byte]
  rcases h1 : writeBits 8 b s with ⟨s1, t1⟩
  have hs1 : s1.sdaIn = s.sdaIn := by rw [← writeBits_sdaIn 8 b s, h1]
  rcases h2 : i2c_read_ack s1 with ⟨a, s2, t2⟩
  have ha : a = (s1.sdaIn.headD true == false) := by rw [← i2c_read_ack_ret s1, h2]
  simp [ha, hs1]

theorem i2c_write_byte_sdaIn (b : Nat) (s : Mcu) :
    (i2c_write_byte b s).2.1.sdaIn = s.sdaIn.tail := by
  simp only [i2c_write_byte]
  rcases h1 : writeBits 8 b s with ⟨s1, t1⟩
  have hs1 : s1.sdaIn = s.sdaIn := by rw [← writeBits_sdaIn 8 b s, h1]
  rcases h2 : i2c_read_ack s1 with ⟨a, s2, t2⟩
  have hs2 : s2.sdaIn = s1.sdaIn.tail := by rw [← i2c_read_ack_sdaIn s1, h2]
  simp [hs2, hs1]

/-! ### Oracle bookkeeping -/

theorem headD_getD (l : List Bool) : l.headD true = l.getD 0 true := by
  cases l <;> rfl

theorem tail_getD (l : List Bool) (n : Nat) :
    l.tail.getD n true = l.getD (n + 1) true := by
  cases l <;> rfl

theorem i2c_start_sdaIn (s : Mcu) : (i2c_start s).1.sdaIn = s.sdaIn := rfl

theorem i2c_stop_sdaIn (s : Mcu) : (i2c_stop s).1.sdaIn = s.sdaIn := rfl

/-! ### State preservation lemmas -/

theorem StPres_refl (s : Mcu) : StPres s s :=
  ⟨rfl, rfl, rfl, rfl, fun h => h, fun h => h⟩

theorem StPres_trans {s r u : Mcu} (h1 : StPres s r) (h2 : StPres r u) : StPres s u := by
  obtain ⟨a1, b1, c1, d1, e1, f1⟩ := h1
  obtain ⟨a2, b2, c2, d2, e2, f2⟩ := h2
  exact ⟨a2.trans a1, b2.trans b1, c2.trans c1, d2.trans d1,
    fun h => e2 (e1 h), fun h => f2 (f1 h)⟩

theorem SDA_release_pres (s : Mcu) : StPres s (SDA_release s).1 :=
  ⟨rfl, rfl, rfl, rfl, fun h => h, fun h => h⟩

theorem SCL_release_pres (s : Mcu) : StPres s (SCL_release s).1 :=
  ⟨rfl, rfl, rfl, rfl, fun h => h, fun h => h⟩

theorem delay_short_pres (s : Mcu) : StPres s (delay_short s).1 := StPres_refl s

theorem SDA_read_pres (s : Mcu) : StPres s (SDA_read s).2.1 :=
  ⟨rfl, rfl, rfl, rfl, fun h => h, fun h => h⟩

theorem SDA_low_pres (s : Mcu) : StPres s (SDA_low s).1 := by
  unfold StPres SDA_low dirOr outAnd
  refine ⟨rfl, rfl, rfl, ?_, ?_, ?_⟩
  · exact tb_and _ _ _ (by decide)
  · intro h; rw [tb_and _ _ _ (by decide)]; exact h
  · intro h; exact tb_and_false _ _ _ (by decide)

theorem SCL_low_pres (s : Mcu) : StPres s (SCL_low s).1 := by
  unfold StPres SCL_low dirOr outAnd
  refine ⟨rfl, rfl, rfl, ?_, ?_, ?_⟩
  · exact tb_and _ _ _ (by decide)
  · intro h; exact tb_and_false _ _ _ (by decide)
  · intro h; rw [tb_and _ _ _ (by decide)]; exact h

theorem i2c_idle_pres (s : Mcu) : StPres s (i2c_idle s).1 := by
  have e : (i2c_idle s).1 = (SCL_release ((SDA_release s).1)).1 := rfl
  rw [e]
  exact StPres_trans (SDA_release_pres s) (SCL_release_pres _)

theorem i2c_start_pres (s : Mcu) : StPres s (i2c_start s).1 := by
  have e : (i2c_start s).1 =
      (SCL_low ((SDA_low ((SCL_release ((SDA_release s).1)).1)).1)).1 := rfl
  rw [e]
  exact StPres_trans (SDA_release_pres s) (StPres_trans (SCL_release_pres _)
    (StPres_trans (SDA_low_pres _) (SCL_low_pres _)))

theorem i2c_stop_pres (s : Mcu) : StPres s (i2c_stop s).1 := by
  have e : (i2c_stop s).1 =
      (SDA_release ((SCL_release ((SDA_low s).1)).1)).1 := rfl
  rw [e]
  exact StPres_trans (SDA_low_pres s) (StPres_trans (SCL_release_pres _)
    (SDA_release_pres _))

theorem i2c_write_bit_pres (bit : Bool) (s : Mcu) : StPres s (i2c_write_bit bit s).1 := by
  cases bit with
  | false =>
    have e : (i2c_write_bit false s).1 =
        (SCL_low ((SCL_release ((SDA_low s).1)).1)).1 := rfl
    rw [e]
    exact StPres_trans (SDA_low_pres s) (StPres_trans (SCL_release_pres _) (SCL_low_pres _))
  | true =>
    have e : (i2c_write_bit true s).1 =
        (SCL_low ((SCL_release ((SDA_release s).1)).1)).1 := rfl
    rw [e]
    exact StPres_trans (SDA_release_pres s) (StPres_trans (SCL_release_pres _) (SCL_low_pres _))

theorem i2c_read_ack_pres (s : Mcu) : StPres s (i2c_read_ack s).2.1 := by
  have e : (i2c_read_ack s).2.1 =
      (SCL_low ((SDA_read ((SCL_release ((SDA_release s).1)).1)).2.1)).1 := rfl
  rw [e]
  exact StPres_trans (SDA_release_pres s) (StPres_trans (SCL_release_pres _)
    (StPres_trans (SDA_read_pres _) (SCL_low_pres _)))

theorem writeBits_pres (n : Nat) : ∀ (b : Nat) (s : Mcu), StPres s (writeBits n b s).1 := by
  induction n with
  | zero => intro b s; exact StPres_refl s
  | succ n ih =>
    intro b s
    have e : (writeBits (n + 1) b s).1 =
        (writeBits n ((b <<< 1) &&& 0xFF) ((i2c_write_bit (b &&& 0x80 != 0) s).1)).1 := rfl
    rw [e]
    exact StPres_trans (i2c_write_bit_pres _ s) (ih _ _)

theorem i2c_write_byte_pres (b : Nat) (s : Mcu) : StPres s (i2c_write_byte b s).2.1 := by
  have e : (i2c_write_byte b s).2.1 = (i2c_read_ack ((writeBits 8 b s).1)).2.1 := rfl
  rw [e]
  exact StPres_trans (writeBits_pres 8 b s) (i2c_read_ack_pres _)

theorem i2c_stop_dir (s : Mcu) : busReleased (i2c_stop s).1 := by
  have e : (i2c_stop s).1 = (SDA_release ((SCL_release ((SDA_low s).1)).1)).1 := rfl
  rw [e]
  unfold busReleased SDA_release SCL_release SDA_low dirAnd dirOr outAnd
  constructor
  · rw [tb_and _ _ _ (by decide)]; exact tb_and_false _ _ _ (by decide)
  · exact tb_and_false _ _ _ (by decide)

/-- Full characterisation of `oled_write`: its trace is the rendering of the
protocol-level transfer `writeProto`, its return value is the ACK of the last
byte reached, the bus registers are restored (both lines released, pull-up
and RES state untouched), and the LED port is written only on the full
three-byte path. -/
theorem oled_write_master (c d : Nat) (hc : c < 256) (hd : d < 256) (s : Mcu) :
    (oled_write c d s).2.2 =
      renderAll (writeProto c d (sampleAt s 0) (sampleAt s 1) (sampleAt s 2))
    ∧ (oled_write c d s).1 =
        (if sampleAt s 0 then false else if sampleAt s 1 then false
         else !(sampleAt s 2))
    ∧ (oled_write c d s).2.1.p2ren = s.p2ren
    ∧ (oled_write c d s).2.1.p3dir = s.p3dir
    ∧ (oled_write c d s).2.1.p2out.testBit 0 = s.p2out.testBit 0
    ∧ (s.p2out.testBit 1 = false → (oled_write c d s).2.1.p2out.testBit 1 = false)
    ∧ (s.p2out.testBit 2 = false → (oled_write c d s).2.1.p2out.testBit 2 = false)
    ∧ busReleased (oled_write c d s).2.1
    ∧ (oled_write c d s).2.1.p3out =
        (if sampleAt s 0 then s.p3out else if sampleAt s 1 then s.p3out
         else if sampleAt s 2 then s.p3out &&& cNot BIT4 else s.p3out ||| BIT4) := by
  rcases h1 : i2c_start s with ⟨s1, t1⟩
  have ht1 : t1 = startTrace := by have := i2c_start_tr s; rwa [h1] at this
  have hs1 : s1.sdaIn = s.sdaIn := by have := i2c_start_sdaIn s; rwa [h1] at this
  have p1 : StPres s s1 := by have := i2c_start_pres s; rwa [h1] at this
  rcases h2 : i2c_write_byte SSD1315_ADDR_WRITE s1 with ⟨ok1, s2, t2⟩
  have hok1 : ok1 = (sampleAt s 0 == false) := by
    have := i2c_write_byte_ret SSD1315_ADDR_WRITE s1
    rw [h2] at this
    simp only [sampleAt]
    rw [← hs1, ← headD_getD]
    exact this
  have ht2 : t2 = byteTrace SSD1315_ADDR_WRITE (sampleAt s 0) := by
    have := i2c_write_byte_tr SSD1315_ADDR_WRITE (by decide) s1
    rw [h2] at this
    simp only [sampleAt]
    rw [← hs1, ← headD_getD]
    exact this
  have hs2 : s2.sdaIn = s.sdaIn.tail := by
    have := i2c_write_byte_sdaIn SSD1315_ADDR_WRITE s1
    rw [h2] at this
    rw [← hs1]
    exact this
  have p2 : StPres s s2 := by
    have := i2c_write_byte_pres SSD1315_ADDR_WRITE s1
    rw [h2] at this
    exact StPres_trans p1 this
  simp only [oled_write, h1, h2]
  cases ha1 : sampleAt s 0 with
  | true =>
    rw [ha1] at ht2
    have hok1L : ok1 = false := by rw [hok1, ha1]; rfl
    rcases h3 : i2c_stop s2 with ⟨s3, t3⟩
    have ht3 : t3 = stopTrace := by have := i2c_stop_tr s2; rwa [h3] at this
    have p3 : StPres s s3 := by
      have := i2c_stop_pres s2; rw [h3] at this; exact StPres_trans p2 this
    have hrel : busReleased s3 := by have := i2c_stop_dir s2; rwa [h3] at this
    obtain ⟨g1, g2, g3, g4, g5, g6⟩ := p3
    simp only [hok1L, Bool.not_false, if_true, h3]
    refine ⟨?_, by trivial, g1, g3, g4, g5, g6, hrel, ?_⟩
    · rw [ht1, ht2, ht3]
      simp [renderAll, writeProto, render, List.append_assoc]
    · rw [g2]
  | false =>
    rw [ha1] at ht2
    have hok1L : ok1 = true := by rw [hok1, ha1]; rfl
    simp only [hok1L, Bool.not_true, Bool.false_eq_true, if_false]
    rcases h4 : i2c_write_byte c s2 with ⟨ok2, s4, t4⟩
    have hok2 : ok2 = (sampleAt s 1 == false) := by
      have := i2c_write_byte_ret c s2
      rw [h4] at this
      simp only [sampleAt]
      rw [← tail_getD, ← hs2, ← headD_getD]
      exact this
    have ht4 : t4 = byteTrace c (sampleAt s 1) := by
      have := i2c_write_byte_tr c hc s2
      rw [h4] at this
      simp only [sampleAt]
      rw [← tail_getD, ← hs2, ← headD_getD]
      exact this
    have hs4 : s4.sdaIn = s.sdaIn.tail.tail := by
      have := i2c_write_byte_sdaIn c s2
      rw [h4] at this
      rw [← hs2]
      exact this
    have p4 : StPres s s4 := by
      have := i2c_write_byte_pres c s2
      rw [h4] at this
      exact StPres_trans p2 this
    simp only [h4]
    cases ha2 : sampleAt s 1 with
    | true =>
      rw [ha2] at ht4
      have hok2L : ok2 = false := by rw [hok2, ha2]; rfl
      rcases h5 : i2c_stop s4 with ⟨s5, t5⟩
      have ht5 : t5 = stopTrace := by have := i2c_stop_tr s4; rwa [h5] at this
      have p5 : StPres s s5 := by
        have := i2c_stop_pres s4; rw [h5] at this; exact StPres_trans p4 this
      have hrel : busReleased s5 := by have := i2c_stop_dir s4; rwa [h5] at this
      obtain ⟨g1, g2, g3, g4, g5, g6⟩ := p5
      simp only [hok2L, Bool.not_false, if_true, h5]
      refine ⟨?_, by trivial, g1, g3, g4, g5, g6, hrel, ?_⟩
      · rw [ht1, ht2, ht4, ht5]
        simp [renderAll, writeProto, render, List.append_assoc]
      · rw [g2]
    | false =>
      rw [ha2] at ht4
      have hok2L : ok2 = true := by rw [hok2, ha2]; rfl
      simp only [hok2L, Bool.not_true, Bool.false_eq_true, if_false]
      rcases h6 : i2c_write_byte d s4 with ⟨ok3, s6, t6⟩
      have hok3 : ok3 = (sampleAt s 2 == false) := by
        have := i2c_write_byte_ret d s4
        rw [h6] at this
        simp only [sampleAt]
        rw [← tail_getD, ← tail_getD, ← hs4, ← headD_getD]
        exact this
      have ht6 : t6 = byteTrace d (sampleAt s 2) := by
        have := i2c_write_byte_tr d hd s4
        rw [h6] at this
        simp only [sampleAt]
        rw [← tail_getD, ← tail_getD, ← hs4, ← headD_getD]
        exact this
      have p6 : StPres s s6 := by
        have := i2c_write_byte_pres d s4
        rw [h6] at this
        exact StPres_trans p4 this
      obtain ⟨g1, g2, g3, g4, g5, g6⟩ := p6
      simp only [h6]
      cases ha3 : sampleAt s 2 with
      | true =>
        rw [ha3] at ht6
        have hok3L : ok3 = false := by rw [hok3, ha3]; rfl
        simp only [hok3L, Bool.false_eq_true, if_false]
        rcases h7 : i2c_stop { s6 with p3out := s6.p3out &&& cNot BIT4 } with ⟨s7, t7⟩
        have ht7 : t7 = stopTrace := by
          have := i2c_stop_tr { s6 with p3out := s6.p3out &&& cNot BIT4 }
          rwa [h7] at this
        have p7 : StPres { s6 with p3out := s6.p3out &&& cNot BIT4 } s7 := by
          have := i2c_stop_pres { s6 with p3out := s6.p3out &&& cNot BIT4 }
          rwa [h7] at this
        have hrel : busReleased s7 := by
          have := i2c_stop_dir { s6 with p3out := s6.p3out &&& cNot BIT4 }
          rwa [h7] at this
        obtain ⟨k1, k2, k3, k4, k5, k6⟩ := p7
        simp only [h7]
        refine ⟨?_, by trivial, ?_, ?_, ?_, ?_, ?_, hrel, ?_⟩
        · rw [ht1, ht2, ht4, ht6, ht7]
          simp [renderAll, writeProto, render, List.append_assoc]
        · exact k1.trans g1
        · exact k3.trans g3
        · exact k4.trans g4
        · intro h; exact k5 (g5 h)
        · intro h; exact k6 (g6 h)
        · rw [k2]; simp [g2]
      | false =>
        rw [ha3] at ht6
        have hok3L : ok3 = true := by rw [hok3, ha3]; rfl
        simp only [hok3L, if_true]
        rcases h7 : i2c_stop { s6 with p3out := s6.p3out ||| BIT4 } with ⟨s7, t7⟩
        have ht7 : t7 = stopTrace := by
          have := i2c_stop_tr { s6 with p3out := s6.p3out ||| BIT4 }
          rwa [h7] at this
        have p7 : StPres { s6 with p3out := s6.p3out ||| BIT4 } s7 := by
          have := i2c_stop_pres { s6 with p3out := s6.p3out ||| BIT4 }
          rwa [h7] at this
        have hrel : busReleased s7 := by
          have := i2c_stop_dir { s6 with p3out := s6.p3out ||| BIT4 }
          rwa [h7] at this
        obtain ⟨k1, k2, k3, k4, k5, k6⟩ := p7
        simp only [h7]
        refine ⟨?_, by trivial, ?_, ?_, ?_, ?_, ?_, hrel, ?_⟩
        · rw [ht1, ht2, ht4, ht6, ht7]
          simp [renderAll, writeProto, render, List.append_assoc]
        · exact k1.trans g1
        · exact k3.trans g3
        · exact k4.trans g4
        · intro h; exact k5 (g5 h)
        · intro h; exact k6 (g6 h)
        · rw [k2]; simp [g2]

/-! ### OLED init, reset and main-sequence lemmas -/

theorem oled_cmd_eq (c : Nat) (s : Mcu) : oled_cmd c s = oled_write OLED_CTRL_CMD c s := rfl

theorem oled_gpio_init_tr (s : Mcu) :
    (oled_gpio_init s).2 =
      [Ev.initOutClear, Ev.initResDirOut, Ev.initRenClear, Ev.resHigh,
       Ev.sdaRel, Ev.sclRel, Ev.dShort] := rfl

theorem oled_gpio_init_st (s : Mcu) :
    (oled_gpio_init s).1.p2out.testBit 0 = true
    ∧ busOutsLow (oled_gpio_init s).1
    ∧ busReleased (oled_gpio_init s).1
    ∧ (oled_gpio_init s).1.p3out = s.p3out
    ∧ (oled_gpio_init s).1.p3dir = s.p3dir
    ∧ (oled_gpio_init s).1.sdaIn = s.sdaIn := by
  have e : (oled_gpio_init s).1 =
      (SCL_release ((SDA_release (outOr OLED_RES_BIT (renAnd
        (compl8 (OLED_SCL_BIT ||| OLED_SDA_BIT)) (dirOr OLED_RES_BIT
          (outAnd (compl8 (OLED_SCL_BIT ||| OLED_SDA_BIT ||| OLED_RES_BIT)) s))))).1)).1 := rfl
  rw [e]
  unfold busOutsLow busReleased SCL_release SDA_release outOr renAnd dirOr outAnd dirAnd
  refine ⟨?_, ⟨?_, ?_⟩, ⟨?_, ?_⟩, rfl, rfl, rfl⟩
  · exact tb_or_true _ _ _ (by decide)
  · rw [tb_or _ _ _ (by decide)]; exact tb_and_false _ _ _ (by decide)
  · rw [tb_or _ _ _ (by decide)]; exact tb_and_false _ _ _ (by decide)
  · exact tb_and_false _ _ _ (by decide)
  · rw [tb_and _ _ _ (by decide)]; exact tb_and_false _ _ _ (by decide)

theorem oled_reset_pulse_tr (s : Mcu) :
    (oled_reset_pulse s).2 = [Ev.resLow, Ev.dMs 50, Ev.resHigh, Ev.dMs 50] := rfl

theorem oled_reset_pulse_st (s : Mcu) :
    (oled_reset_pulse s).1.p2out.testBit 0 = true
    ∧ (s.p2out.testBit 1 = false → (oled_reset_pulse s).1.p2out.testBit 1 = false)
    ∧ (s.p2out.testBit 2 = false → (oled_reset_pulse s).1.p2out.testBit 2 = false)
    ∧ (oled_reset_pulse s).1.p2dir = s.p2dir
    ∧ (oled_reset_pulse s).1.p2ren = s.p2ren
    ∧ (oled_reset_pulse s).1.p3out = s.p3out
    ∧ (oled_reset_pulse s).1.p3dir = s.p3dir
    ∧ (oled_reset_pulse s).1.sdaIn = s.sdaIn := by
  have e : (oled_reset_pulse s).1 =
      outOr OLED_RES_BIT (outAnd (compl8 OLED_RES_BIT) s) := rfl
  rw [e]
  unfold outOr outAnd
  refine ⟨?_, ?_, ?_, rfl, rfl, rfl, rfl, rfl⟩
  · exact tb_or_true _ _ _ (by decide)
  · intro h; rw [tb_or _ _ _ (by decide), tb_and _ _ _ (by decide)]; exact h
  · intro h; rw [tb_or _ _ _ (by decide), tb_and _ _ _ (by decide)]; exact h

/-- While the reset pulse holds RES low (between its two P2OUT writes), the
RES bit reads 0. -/
theorem oled_reset_pulse_mid (s : Mcu) :
    (outAnd (compl8 OLED_RES_BIT) s).p2out.testBit 0 = false := by
  unfold outAnd
  exact tb_and_false _ _ _ (by decide)

theorem oled_init_minimal_decomp (s : Mcu) :
    oled_init_minimal s =
      ((oled_cmd 0xAF s).2.1,
       [Ev.dS 8] ++ (oled_cmd 0xAF s).2.2 ++ [Ev.dMs 150]) := rfl

theorem i2c_write_byte_tr0 (b : Nat) (s : Mcu) :
    (i2c_write_byte b s).2.2 = bitsTraceAux 8 b ++ ackTrace (s.sdaIn.headD true) := by
  simp only [i2c_write_byte]
  rcases h1 : writeBits 8 b s with ⟨s1, t1⟩
  have ht1 : t1 = bitsTraceAux 8 b := by rw [← writeBits_tr 8 b s, h1]
  have hs1 : s1.sdaIn = s.sdaIn := by rw [← writeBits_sdaIn 8 b s, h1]
  rcases h2 : i2c_read_ack s1 with ⟨a, s2, t2⟩
  have ht2 : t2 = ackTrace (s1.sdaIn.headD true) := by rw [← i2c_read_ack_tr s1, h2]
  simp [ht1, ht2, hs1]

theorem not_mem_joinBits {e : Ev} (he : ∀ b, e ∉ bitTrace b) :
    ∀ l : List Bool, e ∉ joinBits l := by
  intro l
  induction l with
  | nil => simp [joinBits]
  | cons b t ih =>
    have hj : joinBits (b :: t) = bitTrace b ++ joinBits t := rfl
    rw [hj]
    intro hmem
    rcases List.mem_append.mp hmem with h | h
    · exact he b h
    · exact ih h

theorem not_mem_bitsTraceAux {e : Ev} (he : ∀ b, e ∉ bitTrace b) :
    ∀ (n : Nat) (b : Nat), e ∉ bitsTraceAux n b := by
  intro n
  induction n with
  | zero => intro b; simp [bitsTraceAux]
  | succ n ih =>
    intro b
    intro hmem
    rcases List.mem_append.mp hmem with h | h
    · exact he _ h
    · exact ih _ h

theorem not_mem_byteTrace {e : Ev} (hb : ∀ b, e ∉ bitTrace b)
    (ha : ∀ v, e ∉ ackTrace v) (c : Nat) (v : Bool) : e ∉ byteTrace c v := by
  intro hmem
  rcases List.mem_append.mp hmem with h | h
  · exact not_mem_joinBits hb _ h
  · exact ha v h

theorem not_mem_renderAll {e : Ev} :
    ∀ l : List PEv, (∀ p ∈ l, e ∉ render p) → e ∉ renderAll l := by
  intro l
  induction l with
  | nil => intro _; simp [renderAll]
  | cons p t ih =>
    intro h
    have hr : renderAll (p :: t) = render p ++ renderAll t := rfl
    rw [hr]
    intro hmem
    rcases List.mem_append.mp hmem with hm | hm
    · exact h p (List.mem_cons_self p t) hm
    · exact ih (fun q hq => h q (List.mem_cons_of_mem p hq)) hm

theorem ledOn_not_bitTrace : ∀ b, Ev.ledOn ∉ bitTrace b := by
  intro b; cases b <;> decide

theorem ledOn_not_ackTrace : ∀ v, Ev.ledOn ∉ ackTrace v := by
  intro v; cases v <;> decide

theorem ledOff_not_bitTrace : ∀ b, Ev.ledOff ∉ bitTrace b := by
  intro b; cases b <;> decide

theorem ledOff_not_ackTrace : ∀ v, Ev.ledOff ∉ ackTrace v := by
  intro v; cases v <;> decide

theorem resLow_not_bitTrace : ∀ b, Ev.resLow ∉ bitTrace b := by
  intro b; cases b <;> decide

theorem resLow_not_ackTrace : ∀ v, Ev.resLow ∉ ackTrace v := by
  intro v; cases v <;> decide

/-- `oled_write` state facts that need no bound on the byte values: the
pull-up register, LED direction, and RES output bit are untouched, low bus
output bits stay low, and both lines end released. -/
theorem oled_write_stq (c d : Nat) (s : Mcu) :
    (oled_write c d s).2.1.p2ren = s.p2ren
    ∧ (oled_write c d s).2.1.p3dir = s.p3dir
    ∧ (oled_write c d s).2.1.p2out.testBit 0 = s.p2out.testBit 0
    ∧ (s.p2out.testBit 1 = false → (oled_write c d s).2.1.p2out.testBit 1 = false)
    ∧ (s.p2out.testBit 2 = false → (oled_write c d s).2.1.p2out.testBit 2 = false)
    ∧ busReleased (oled_write c d s).2.1 := by
  simp only [oled_write]
  rcases h1 : i2c_start s with ⟨s1, t1⟩
  have p1 : StPres s s1 := by have := i2c_start_pres s; rwa [h1] at this
  rcases h2 : i2c_write_byte SSD1315_ADDR_WRITE s1 with ⟨ok1, s2, t2⟩
  have p2 : StPres s s2 := by
    have := i2c_write_byte_pres SSD1315_ADDR_WRITE s1
    rw [h2] at this
    exact StPres_trans p1 this
  cases ok1 with
  | false =>
    simp only [Bool.not_false, if_true]
    rcases h3 : i2c_stop s2 with ⟨s3, t3⟩
    have p3 : StPres s s3 := by
      have := i2c_stop_pres s2; rw [h3] at this; exact StPres_trans p2 this
    have hrel : busReleased s3 := by have := i2c_stop_dir s2; rwa [h3] at this
    obtain ⟨g1, g2, g3, g4, g5, g6⟩ := p3
    exact ⟨g1, g3, g4, g5, g6, hrel⟩
  | true =>
    simp only [Bool.not_true, Bool.false_eq_true, if_false]
    rcases h4 : i2c_write_byte c s2 with ⟨ok2, s4, t4⟩
    have p4 : StPres s s4 := by
      have := i2c_write_byte_pres c s2
      rw [h4] at this
      exact StPres_trans p2 this
    cases ok2 with
    | false =>
      simp only [Bool.not_false, if_true]
      rcases h5 : i2c_stop s4 with ⟨s5, t5⟩
      have p5 : StPres s s5 := by
        have := i2c_stop_pres s4; rw [h5] at this; exact StPres_trans p4 this
      have hrel : busReleased s5 := by have := i2c_stop_dir s4; rwa [h5] at this
      obtain ⟨g1, g2, g3, g4, g5, g6⟩ := p5
      exact ⟨g1, g3, g4, g5, g6, hrel⟩
    | true =>
      simp only [Bool.not_true, Bool.false_eq_true, if_false]
      rcases h6 : i2c_write_byte d s4 with ⟨ok3, s6, t6⟩
      have p6 : StPres s s6 := by
        have := i2c_write_byte_pres d s4
        rw [h6] at this
        exact StPres_trans p4 this
      obtain ⟨g1, g2, g3, g4, g5, g6⟩ := p6
      cases ok3 with
      | false =>
        simp only [Bool.false_eq_true, if_false]
        rcases h7 : i2c_stop { s6 with p3out := s6.p3out &&& cNot BIT4 } with ⟨s7, t7⟩
        have p7 : StPres { s6 with p3out := s6.p3out &&& cNot BIT4 } s7 := by
          have := i2c_stop_pres { s6 with p3out := s6.p3out &&& cNot BIT4 }
          rwa [h7] at this
        have hrel : busReleased s7 := by
          have := i2c_stop_dir { s6 with p3out := s6.p3out &&& cNot BIT4 }
          rwa [h7] at this
        obtain ⟨k1, k2, k3, k4, k5, k6⟩ := p7
        exact ⟨k1.trans g1, k3.trans g3, k4.trans g4,
          fun h => k5 (g5 h), fun h => k6 (g6 h), hrel⟩
      | true =>
        simp only [if_true]
        rcases h7 : i2c_stop { s6 with p3out := s6.p3out ||| BIT4 } with ⟨s7, t7⟩
        have p7 : StPres { s6 with p3out := s6.p3out ||| BIT4 } s7 := by
          have := i2c_stop_pres { s6 with p3out := s6.p3out ||| BIT4 }
          rwa [h7] at this
        have hrel : busReleased s7 := by
          have := i2c_stop_dir { s6 with p3out := s6.p3out ||| BIT4 }
          rwa [h7] at this
        obtain ⟨k1, k2, k3, k4, k5, k6⟩ := p7
        exact ⟨k1.trans g1, k3.trans g3, k4.trans g4,
          fun h => k5 (g5 h), fun h => k6 (g6 h), hrel⟩

/-- No `oled_write` path ever drives RES low: the RES-low register write
occurs only in `oled_reset_pulse`. -/
theorem oled_write_no_res (c d : Nat) (s : Mcu) :
    Ev.resLow ∉ (oled_write c d s).2.2 := by
  have hstart : Ev.resLow ∉ startTrace := by decide
  have hstop : Ev.resLow ∉ stopTrace := by decide
  have hbyte : ∀ (b : Nat) (s' : Mcu), Ev.resLow ∉ (i2c_write_byte b s').2.2 := by
    intro b s'
    rw [i2c_write_byte_tr0]
    intro hmem
    rcases List.mem_append.mp hmem with h | h
    · exact not_mem_bitsTraceAux resLow_not_bitTrace _ _ h
    · exact resLow_not_ackTrace _ h
  simp only [oled_write]
  rcases h1 : i2c_start s with ⟨s1, t1⟩
  have ht1 : t1 = startTrace := by have := i2c_start_tr s; rwa [h1] at this
  rcases h2 : i2c_write_byte SSD1315_ADDR_WRITE s1 with ⟨ok1, s2, t2⟩
  have ht2 : Ev.resLow ∉ t2 := by
    have := hbyte SSD1315_ADDR_WRITE s1; rwa [h2] at this
  cases ok1 with
  | false =>
    simp only [Bool.not_false, if_true]
    rcases h3 : i2c_stop s2 with ⟨s3, t3⟩
    have ht3 : t3 = stopTrace := by have := i2c_stop_tr s2; rwa [h3] at this
    intro hmem
    rcases List.mem_append.mp hmem with h | h
    · rcases List.mem_append.mp h with h | h
      · exact (ht1 ▸ hstart) h
      · exact ht2 h
    · exact (ht3 ▸ hstop) h
  | true =>
    simp only [Bool.not_true, Bool.false_eq_true, if_false]
    rcases h4 : i2c_write_byte c s2 with ⟨ok2, s4, t4⟩
    have ht4 : Ev.resLow ∉ t4 := by have := hbyte c s2; rwa [h4] at this
    cases ok2 with
    | false =>
      simp only [Bool.not_false, if_true]
      rcases h5 : i2c_stop s4 with ⟨s5, t5⟩
      have ht5 : t5 = stopTrace := by have := i2c_stop_tr s4; rwa [h5] at this
      intro hmem
      rcases List.mem_append.mp hmem with h | h
      · rcases List.mem_append.mp h with h | h
        · rcases List.mem_append.mp h with h | h
          · exact (ht1 ▸ hstart) h
          · exact ht2 h
        · exact ht4 h
      · exact (ht5 ▸ hstop) h
    | true =>
      simp only [Bool.not_true, Bool.false_eq_true, if_false]
      rcases h6 : i2c_write_byte d s4 with ⟨ok3, s6, t6⟩
      have ht6 : Ev.resLow ∉ t6 := by have := hbyte d s4; rwa [h6] at this
      cases ok3 with
      | false =>
        simp only [Bool.false_eq_true, if_false]
        rcases h7 : i2c_stop { s6 with p3out := s6.p3out &&& cNot BIT4 } with ⟨s7, t7⟩
        have ht7 : t7 = stopTrace := by
          have := i2c_stop_tr { s6 with p3out := s6.p3out &&& cNot BIT4 }
          rwa [h7] at this
        intro hmem
        rcases List.mem_append.mp hmem with h | h
        · rcases List.mem_append.mp h with h | h
          · rcases List.mem_append.mp h with h | h
            · rcases List.mem_append.mp h with h | h
              · rcases List.mem_append.mp h with h | h
                · exact (ht1 ▸ hstart) h
                · exact ht2 h
              · exact ht4 h
            · exact ht6 h
          · simp at h
        · exact (ht7 ▸ hstop) h
      | true =>
        simp only [if_true]
        rcases h7 : i2c_stop { s6 with p3out := s6.p3out ||| BIT4 } with ⟨s7, t7⟩
        have ht7 : t7 = stopTrace := by
          have := i2c_stop_tr { s6 with p3out := s6.p3out ||| BIT4 }
          rwa [h7] at this
        intro hmem
        rcases List.mem_append.mp hmem with h | h
        · rcases List.mem_append.mp h with h | h
          · rcases List.mem_append.mp h with h | h
            · rcases List.mem_append.mp h with h | h
              · rcases List.mem_append.mp h with h | h
                · exact (ht1 ▸ hstart) h
                · exact ht2 h
              · exact ht4 h
            · exact ht6 h
          · simp at h
        · exact (ht7 ▸ hstop) h

theorem main_model_decomp (s0 : Mcu) :
    main_model s0 =
      ((oled_cmd 0xA5 (postInit s0)).2.1,
       (oled_gpio_init (main_pre s0)).2 ++ [Ev.dMs 200]
         ++ (oled_reset_pulse (postGpio s0)).2
         ++ (oled_init_minimal (postReset s0)).2
         ++ (oled_cmd 0xA5 (postInit s0)).2.2) := rfl

theorem oled_cmd_tr (c : Nat) (hc : c < 256) (s : Mcu) :
    (oled_cmd c s).2.2 =
      renderAll (writeProto OLED_CTRL_CMD c (sampleAt s 0) (sampleAt s 1) (sampleAt s 2)) := by
  rw [oled_cmd_eq]
  exact (oled_write_master OLED_CTRL_CMD c (by decide) hc s).1

theorem noCp_cmd_AF (a1 a2 a3 : Bool) :
    ((writeProto OLED_CTRL_CMD 0xAF a1 a2 a3).all noCpByte) = true := by
  cases a1 <;> cases a2 <;> cases a3 <;> rfl

theorem noCp_cmd_A5 (a1 a2 a3 : Bool) :
    ((writeProto OLED_CTRL_CMD 0xA5 a1 a2 a3).all noCpByte) = true := by
  cases a1 <;> cases a2 <;> cases a3 <;> rfl

theorem delay_cycles_const_closed : ∀ n, delay_cycles_const n = 1000 * n := by
  intro n
  induction n with
  | zero => rfl
  | succ n ih =>
    show 1000 + delay_cycles_const n = 1000 * (n + 1)
    rw [ih]
    ring

theorem delay_ms_cycles_closed : ∀ n, delay_ms_cycles n = 5000 * n := by
  intro n
  induction n with
  | zero => rfl
  | succ n ih =>
    show delay_cycles_const 5 + delay_ms_cycles n = 5000 * (n + 1)
    rw [ih, delay_cycles_const_closed]
    ring

theorem delay_s_cycles_closed : ∀ n, delay_s_cycles n = 5000000 * n := by
  intro n
  induction n with
  | zero => rfl
  | succ n ih =>
    show delay_ms_cycles 1000 + delay_s_cycles n = 5000000 * (n + 1)
    rw [ih, delay_ms_cycles_closed]
    ring

theorem bitTrace_len (b : Bool) : (bitTrace b).length = 6 := by
  cases b <;> rfl

theorem bitsTraceAux_len : ∀ (n : Nat) (b : Nat), (bitsTraceAux n b).length = 6 * n := by
  intro n
  induction n with
  | zero => intro b; rfl
  | succ n ih =>
    intro b
    show (bitTrace _ ++ bitsTraceAux n _).length = 6 * (n + 1)
    rw [List.length_append, bitTrace_len, ih]
    ring

theorem ackTrace_len (v : Bool) : (ackTrace v).length = 7 := rfl

/-! ### The claims -/

/-- C1: for every control and payload byte, `oled_write` emits exactly a
START, the address byte 0x78, and then: on an address NACK a STOP and a
`false` return with no further bytes; otherwise the control byte, a NACK
there giving a STOP and `false`; otherwise the payload byte (and the LED
update) followed by a STOP, returning the payload's ACK.  Every path's
protocol trace holds exactly one START and one STOP. -/
theorem oled_write_transfer_protocol (c d : Nat) (hc : c < 256) (hd : d < 256) (s : Mcu) :
    (oled_write c d s).2.2 =
      renderAll (writeProto c d (sampleAt s 0) (sampleAt s 1) (sampleAt s 2))
    ∧ (oled_write c d s).1 =
        (if sampleAt s 0 then false else if sampleAt s 1 then false
         else !(sampleAt s 2))
    ∧ (writeProto c d (sampleAt s 0) (sampleAt s 1) (sampleAt s 2)).count PEv.pstart = 1
    ∧ (writeProto c d (sampleAt s 0) (sampleAt s 1) (sampleAt s 2)).count PEv.pstop = 1 := by
  obtain ⟨h1, h2, _⟩ := oled_write_master c d hc hd s
  refine ⟨h1, h2, ?_, ?_⟩ <;>
    (cases sampleAt s 0 <;> cases sampleAt s 1 <;> cases sampleAt s 2 <;> rfl)

/-- Witness for C1 at control byte 0x00, payload 0xAF, an all-NACK slave. -/
theorem oled_write_transfer_protocol_witness :
    (0x00 : Nat) < 256 ∧ (0xAF : Nat) < 256 ∧
    ((oled_write 0x00 0xAF mcu0).2.2 =
       renderAll (writeProto 0x00 0xAF (sampleAt mcu0 0) (sampleAt mcu0 1) (sampleAt mcu0 2))
     ∧ (oled_write 0x00 0xAF mcu0).1 =
         (if sampleAt mcu0 0 then false else if sampleAt mcu0 1 then false
          else !(sampleAt mcu0 2))
     ∧ (writeProto 0x00 0xAF (sampleAt mcu0 0) (sampleAt mcu0 1)
         (sampleAt mcu0 2)).count PEv.pstart = 1
     ∧ (writeProto 0x00 0xAF (sampleAt mcu0 0) (sampleAt mcu0 1)
         (sampleAt mcu0 2)).count PEv.pstop = 1) :=
  ⟨by decide, by decide,
   oled_write_transfer_protocol 0x00 0xAF (by decide) (by decide) mcu0⟩

/-- C2: with `USE_CHARGE_PUMP = 0`, the boot trace after the reset pulse is
an 8 s wait, `cmd 0xAF`, a 150 ms wait, and `cmd 0xA5` as the final traffic;
no transfer carries a charge-pump byte (0x8D or 0x14), and the idle loop body
produces no events at all. -/
theorem boot_no_charge_pump (s0 : Mcu) :
    ∃ a1 a2 a3 b1 b2 b3 : Bool,
      (main_model s0).2 =
        [Ev.initOutClear, Ev.initResDirOut, Ev.initRenClear, Ev.resHigh,
         Ev.sdaRel, Ev.sclRel, Ev.dShort, Ev.dMs 200,
         Ev.resLow, Ev.dMs 50, Ev.resHigh, Ev.dMs 50, Ev.dS 8]
        ++ renderAll (writeProto OLED_CTRL_CMD 0xAF a1 a2 a3)
        ++ [Ev.dMs 150]
        ++ renderAll (writeProto OLED_CTRL_CMD 0xA5 b1 b2 b3)
      ∧ USE_CHARGE_PUMP = 0
      ∧ ((writeProto OLED_CTRL_CMD 0xAF a1 a2 a3
           ++ writeProto OLED_CTRL_CMD 0xA5 b1 b2 b3).all noCpByte) = true
      ∧ delay_s_cycles 8 = 40000000
      ∧ (∀ s, idle_loop_body s = (s, [])) := by
  refine ⟨sampleAt (postReset s0) 0, sampleAt (postReset s0) 1, sampleAt (postReset s0) 2,
    sampleAt (postInit s0) 0, sampleAt (postInit s0) 1, sampleAt (postInit s0) 2,
    ?_, rfl, ?_, ?_, fun s => rfl⟩
  · have h0 : (main_model s0).2 =
        (oled_gpio_init (main_pre s0)).2 ++ [Ev.dMs 200]
          ++ (oled_reset_pulse (postGpio s0)).2
          ++ (oled_init_minimal (postReset s0)).2
          ++ (oled_cmd 0xA5 (postInit s0)).2.2 := by rw [main_model_decomp]
    have e3 : (oled_init_minimal (postReset s0)).2 =
        [Ev.dS 8] ++ (oled_cmd 0xAF (postReset s0)).2.2 ++ [Ev.dMs 150] := by
      rw [oled_init_minimal_decomp]
    rw [h0, oled_gpio_init_tr, oled_reset_pulse_tr, e3,
      oled_cmd_tr 0xAF (by decide), oled_cmd_tr 0xA5 (by decide)]
    simp [List.append_assoc]
  · rw [List.all_append, noCp_cmd_AF, noCp_cmd_A5]; rfl
  · rw [delay_s_cycles_closed]

/-- C3: the intended behaviour is "LED bit set on ACK, cleared on NACK, no
other P3 bit touched", but the NACK branch executes `P3OUT &= !BIT4`, i.e.
`P3OUT &= 0`: on a payload NACK with P3OUT = 0x01 the write clears the whole
port, not just BIT4. -/
theorem led_nack_clears_whole_port :
    mcuBug.p3out.testBit 0 = true
    ∧ (oled_write OLED_CTRL_CMD 0xAF mcuBug).1 = false
    ∧ (oled_write OLED_CTRL_CMD 0xAF mcuBug).2.1.p3out = 0
    ∧ (oled_write OLED_CTRL_CMD 0xAF mcuBug).2.1.p3out.testBit 0 = false
    ∧ (oled_write OLED_CTRL_CMD 0xAF mcuBug).2.1.p3out.testBit 4 = false := by
  decide

/-- C4: `i2c_start` releases both lines, pulls SDA low while SCL is still
released, and only then pulls SCL low; `i2c_stop` pulls SDA low, releases
SCL, and only then releases SDA — each edge separated by a short delay.  The
last two conjuncts check SCL's direction bit is still input (released) when
SDA goes low inside `i2c_start`, and until `SCL_low` runs. -/
theorem start_stop_edge_order (s : Mcu) :
    (i2c_start s).2 =
      [Ev.sdaRel, Ev.sclRel, Ev.dShort, Ev.sdaLow, Ev.dShort, Ev.sclLow, Ev.dShort]
    ∧ (i2c_stop s).2 =
      [Ev.sdaLow, Ev.dShort, Ev.sclRel, Ev.dShort, Ev.sdaRel, Ev.dShort]
    ∧ ((SCL_release ((SDA_release s).1)).1).p2dir.testBit 1 = false
    ∧ ((SDA_low ((SCL_release ((SDA_release s).1)).1)).1).p2dir.testBit 1 = false := by
  refine ⟨rfl, rfl, ?_, ?_⟩
  · unfold SCL_release SDA_release dirAnd
    exact tb_and_false _ _ _ (by decide)
  · unfold SDA_low SCL_release SDA_release dirOr dirAnd outAnd
    rw [tb_or _ _ _ (by decide)]
    exact tb_and_false _ _ _ (by decide)

/-- C5: `i2c_write_byte b` emits exactly the eight bits of `b`, most
significant first, then one ACK read whose result it returns; the ACK read
returns true exactly when the sampled SDA level is low. -/
theorem i2c_write_byte_msb_first (b : Nat) (hb : b < 256) (s : Mcu) :
    (i2c_write_byte b s).2.2 = joinBits (msbBits b) ++ ackTrace (s.sdaIn.headD true)
    ∧ (msbBits b).length = 8
    ∧ (i2c_write_byte b s).1 = (i2c_read_ack ((writeBits 8 b s).1)).1
    ∧ (∀ s' : Mcu, (i2c_read_ack s').1 = (s'.sdaIn.headD true == false)) := by
  refine ⟨?_, rfl, rfl, fun s' => rfl⟩
  have h := i2c_write_byte_tr b hb s
  rw [h]
  rfl

/-- Witness for C5 at the address byte 0x78 and an exhausted oracle. -/
theorem i2c_write_byte_msb_first_witness :
    (0x78 : Nat) < 256 ∧
    ((i2c_write_byte 0x78 mcu0).2.2 =
        joinBits (msbBits 0x78) ++ ackTrace (mcu0.sdaIn.headD true)
     ∧ (msbBits 0x78).length = 8
     ∧ (i2c_write_byte 0x78 mcu0).1 = (i2c_read_ack ((writeBits 8 0x78 mcu0).1)).1
     ∧ (∀ s' : Mcu, (i2c_read_ack s').1 = (s'.sdaIn.headD true == false))) :=
  ⟨by decide, i2c_write_byte_msb_first 0x78 (by decide) mcu0⟩

/-- C6: every P2OUT write while toggling SCL/SDA is a read-modify-write that
keeps the RES bit; RES is high when `oled_gpio_init` returns, every
`oled_write` preserves it and never emits the RES-low write, and the reset
pulse is the only place RES goes low — for 50 ms between its two writes. -/
theorem res_rmw_invariant :
    (∀ s, (SCL_low s).1.p2out.testBit 0 = s.p2out.testBit 0)
    ∧ (∀ s, (SDA_low s).1.p2out.testBit 0 = s.p2out.testBit 0)
    ∧ (∀ s, (SCL_release s).1.p2out = s.p2out)
    ∧ (∀ s, (SDA_release s).1.p2out = s.p2out)
    ∧ (∀ s, (oled_gpio_init s).1.p2out.testBit 0 = true)
    ∧ (∀ c d s, (oled_write c d s).2.1.p2out.testBit 0 = s.p2out.testBit 0)
    ∧ (∀ c d s, Ev.resLow ∉ (oled_write c d s).2.2)
    ∧ (∀ s, (oled_reset_pulse s).2 = [Ev.resLow, Ev.dMs 50, Ev.resHigh, Ev.dMs 50])
    ∧ (∀ s, (outAnd (compl8 OLED_RES_BIT) s).p2out.testBit 0 = false)
    ∧ (∀ s, (oled_reset_pulse s).1.p2out.testBit 0 = true) := by
  refine ⟨?_, ?_, fun s => rfl, fun s => rfl, ?_, ?_, oled_write_no_res, ?_,
    oled_reset_pulse_mid, ?_⟩
  · intro s; exact (SCL_low_pres s).2.2.2.1
  · intro s; exact (SDA_low_pres s).2.2.2.1
  · intro s; exact (oled_gpio_init_st s).1
  · intro c d s; exact (oled_write_stq c d s).2.2.1
  · intro s; exact oled_reset_pulse_tr s
  · intro s; exact (oled_reset_pulse_st s).1

/-- C7: with `USE_INTERNAL_PULLUPS = 0` the master never drives a bus line
high: after `oled_gpio_init` the SCL/SDA output bits are 0, every operation
keeps them 0, and with them 0 no state has a line's direction bit set while
its output bit is 1 — high is only ever the released (input) state. -/
theorem never_drive_high :
    USE_INTERNAL_PULLUPS = 0
    ∧ (∀ s, busOutsLow (oled_gpio_init s).1)
    ∧ (∀ s, busOutsLow s → busOutsLow (i2c_start s).1)
    ∧ (∀ s, busOutsLow s → busOutsLow (i2c_stop s).1)
    ∧ (∀ b s, busOutsLow s → busOutsLow (i2c_write_bit b s).1)
    ∧ (∀ s, busOutsLow s → busOutsLow (i2c_read_ack s).2.1)
    ∧ (∀ b s, busOutsLow s → busOutsLow (i2c_write_byte b s).2.1)
    ∧ (∀ c d s, busOutsLow s → busOutsLow (oled_write c d s).2.1)
    ∧ (∀ s, busOutsLow s → busOutsLow (oled_reset_pulse s).1)
    ∧ (∀ m s, busOutsLow s → busOutsLow (outAnd m s))
    ∧ (∀ m s, (dirOr m s).p2out = s.p2out)
    ∧ (∀ m s, (dirAnd m s).p2out = s.p2out)
    ∧ (∀ s, busOutsLow s → ¬ drivesHigh s) := by
  refine ⟨rfl, ?_, ?_, ?_, ?_, ?_, ?_, ?_, ?_, ?_, fun _ _ => rfl, fun _ _ => rfl, ?_⟩
  · intro s; exact (oled_gpio_init_st s).2.1
  · intro s h; exact ⟨(i2c_start_pres s).2.2.2.2.1 h.1, (i2c_start_pres s).2.2.2.2.2 h.2⟩
  · intro s h; exact ⟨(i2c_stop_pres s).2.2.2.2.1 h.1, (i2c_stop_pres s).2.2.2.2.2 h.2⟩
  · intro b s h
    exact ⟨(i2c_write_bit_pres b s).2.2.2.2.1 h.1, (i2c_write_bit_pres b s).2.2.2.2.2 h.2⟩
  · intro s h
    exact ⟨(i2c_read_ack_pres s).2.2.2.2.1 h.1, (i2c_read_ack_pres s).2.2.2.2.2 h.2⟩
  · intro b s h
    exact ⟨(i2c_write_byte_pres b s).2.2.2.2.1 h.1, (i2c_write_byte_pres b s).2.2.2.2.2 h.2⟩
  · intro c d s h
    exact ⟨(oled_write_stq c d s).2.2.2.1 h.1, (oled_write_stq c d s).2.2.2.2.1 h.2⟩
  · intro s h
    exact ⟨(oled_reset_pulse_st s).2.1 h.1, (oled_reset_pulse_st s).2.2.1 h.2⟩
  · intro m s h
    exact ⟨by rw [outAnd, Nat.testBit_land, h.1]; rfl,
           by rw [outAnd, Nat.testBit_land, h.2]; rfl⟩
  · intro s h hD
    rcases hD with ⟨_, h1⟩ | ⟨_, h2⟩
    · rw [h.1] at h1; exact absurd h1 (by decide)
    · rw [h.2] at h2; exact absurd h2 (by decide)

/-- C8: after `oled_gpio_init` and after every `oled_write` — completed or
aborted — both bus direction bits are inputs (lines released), and the delay
operations leave the registers untouched, so the lines stay released until
the next START. -/
theorem lines_released_between_transfers :
    (∀ s, busReleased (oled_gpio_init s).1)
    ∧ (∀ c d s, busReleased (oled_write c d s).2.1)
    ∧ (∀ s, busReleased (i2c_stop s).1)
    ∧ (∀ n s, delay_ms n s = (s, [Ev.dMs n]))
    ∧ (∀ n s, delay_s n s = (s, [Ev.dS n]))
    ∧ (∀ s, delay_short s = (s, [Ev.dShort])) :=
  ⟨fun s => (oled_gpio_init_st s).2.2.1,
   fun c d s => (oled_write_stq c d s).2.2.2.2.2,
   i2c_stop_dir,
   fun _ _ => rfl, fun _ _ => rfl, fun _ => rfl⟩

/-- C9: when the address byte or the control byte is NACKed, `oled_write`
returns 0 and performs no P3OUT write at all: the trace holds neither LED
event and the LED port is exactly as before. -/
theorem aborted_write_skips_led (c d : Nat) (hc : c < 256) (hd : d < 256) (s : Mcu)
    (h : sampleAt s 0 = true ∨ (sampleAt s 0 = false ∧ sampleAt s 1 = true)) :
    (oled_write c d s).1 = false
    ∧ (oled_write c d s).2.1.p3out = s.p3out
    ∧ Ev.ledOn ∉ (oled_write c d s).2.2
    ∧ Ev.ledOff ∉ (oled_write c d s).2.2 := by
  obtain ⟨htr, hret, _, _, _, _, _, _, hp3⟩ := oled_write_master c d hc hd s
  have habort1 : ∀ (e : Ev), e ∉ startTrace → e ∉ stopTrace →
      (∀ b', e ∉ bitTrace b') → (∀ v, e ∉ ackTrace v) →
      ∀ a2 a3, e ∉ renderAll (writeProto c d true a2 a3) := by
    intro e hs hp hb ha a2 a3
    apply not_mem_renderAll
    intro p hp'
    simp [writeProto] at hp'
    rcases hp' with h' | h' | h'
    · subst h'; exact hs
    · subst h'; exact not_mem_byteTrace hb ha _ _
    · subst h'; exact hp
  have habort2 : ∀ (e : Ev), e ∉ startTrace → e ∉ stopTrace →
      (∀ b', e ∉ bitTrace b') → (∀ v, e ∉ ackTrace v) →
      ∀ a3, e ∉ renderAll (writeProto c d false true a3) := by
    intro e hs hp hb ha a3
    apply not_mem_renderAll
    intro p hp'
    simp [writeProto] at hp'
    rcases hp' with h' | h' | h' | h'
    · subst h'; exact hs
    · subst h'; exact not_mem_byteTrace hb ha _ _
    · subst h'; exact not_mem_byteTrace hb ha _ _
    · subst h'; exact hp
  rcases h with h0 | ⟨h0, h1⟩
  · refine ⟨?_, ?_, ?_, ?_⟩
    · rw [hret, h0]; rfl
    · rw [hp3, h0]; rfl
    · rw [htr, h0]
      exact habort1 Ev.ledOn (by decide) (by decide) ledOn_not_bitTrace
        ledOn_not_ackTrace _ _
    · rw [htr, h0]
      exact habort1 Ev.ledOff (by decide) (by decide) ledOff_not_bitTrace
        ledOff_not_ackTrace _ _
  · refine ⟨?_, ?_, ?_, ?_⟩
    · rw [hret, h0, h1]; rfl
    · rw [hp3, h0, h1]; rfl
    · rw [htr, h0, h1]
      exact habort2 Ev.ledOn (by decide) (by decide) ledOn_not_bitTrace
        ledOn_not_ackTrace _
    · rw [htr, h0, h1]
      exact habort2 Ev.ledOff (by decide) (by decide) ledOff_not_bitTrace
        ledOff_not_ackTrace _

/-- Witness for C9: the all-NACK slave aborts on the address byte. -/
theorem aborted_write_skips_led_witness :
    ((0x00 : Nat) < 256 ∧ (0xAF : Nat) < 256
      ∧ (sampleAt mcu0 0 = true ∨ (sampleAt mcu0 0 = false ∧ sampleAt mcu0 1 = true)))
    ∧ ((oled_write 0x00 0xAF mcu0).1 = false
       ∧ (oled_write 0x00 0xAF mcu0).2.1.p3out = mcu0.p3out
       ∧ Ev.ledOn ∉ (oled_write 0x00 0xAF mcu0).2.2
       ∧ Ev.ledOff ∉ (oled_write 0x00 0xAF mcu0).2.2) :=
  ⟨⟨by decide, by decide, by decide⟩,
   aborted_write_skips_led 0x00 0xAF (by decide) (by decide) mcu0 (by decide)⟩

/-- C10: the delay loops terminate with closed-form cycle counts (and burn
nothing at argument 0), the byte loop runs exactly 8 iterations of 6 bus
events each, and the I2C primitives produce fixed-length finite traces. -/
theorem delays_and_loops_terminate :
    (∀ n, delay_cycles_const n = 1000 * n)
    ∧ (∀ n, delay_ms_cycles n = 5000 * n)
    ∧ (∀ n, delay_s_cycles n = 5000000 * n)
    ∧ delay_cycles_const 0 = 0 ∧ delay_ms_cycles 0 = 0 ∧ delay_s_cycles 0 = 0
    ∧ (∀ b s, (writeBits 8 b s).2 = bitsTraceAux 8 b)
    ∧ (∀ n b, (bitsTraceAux n b).length = 6 * n)
    ∧ (∀ b s, ((i2c_write_byte b s).2.2).length = 55)
    ∧ (∀ s, ((i2c_start s).2).length = 7)
    ∧ (∀ s, ((i2c_stop s).2).length = 6) := by
  refine ⟨delay_cycles_const_closed, delay_ms_cycles_closed, delay_s_cycles_closed,
    rfl, rfl, rfl, fun b s => writeBits_tr 8 b s, bitsTraceAux_len, ?_,
    fun s => rfl, fun s => rfl⟩
  intro b s
  rw [i2c_write_byte_tr0, List.length_append, bitsTraceAux_len, ackTrace_len]

end ScreenBasic
